import Mathlib

/-
Verification of the organization collector of metalmatze/githubql_exporter
(collector/organization.go, the richer variant).

Modelling choices:
* `githubql.Int` (Go int32) is modelled as `Int`; the code performs no
  arithmetic on these values, only identity conversions to float64, which are
  exact for all int32 values, so sample values are modelled as `Int`.
* `githubql.DateTime` (Go time.Time) is modelled by its Unix-epoch-seconds
  value; `time.Time.Unix()` is the projection.  The float64 conversion of a
  Unix-seconds value is exact for all realistic instants (well below 2^53).
* The GraphQL client is modelled as a function from an organization login to
  `Option OrganizationQuery`: `none` is a failed `client.Query` call (any
  network / auth / deadline error) and `some q` a decoded result tree.
* The prometheus channel emissions of `Collect` and `Describe` are modelled as
  the list of emitted items in emission order; a `level.Warn(...).Log(...)`
  call is modelled as a `warn` event in that same stream, so the early
  `return` after a failed query is visible as the stream simply ending.
  `Collect` is a total function: no error is ever raised to the caller.
-/

/-- Go `time.Time` (`githubql.DateTime`), modelled by its Unix-epoch-seconds
value. -/
structure DateTime where
  unixSec : Int
deriving DecidableEq

/-- `time.Time.Unix()`: seconds since the Unix epoch. -/
def DateTime.Unix (d : DateTime) : Int := d.unixSec

/-- The Go zero value of `time.Time` is 0001-01-01T00:00:00Z, whose Unix
seconds are -62135596800. -/
def DateTime.zeroValue : DateTime := ⟨-62135596800⟩

/-- One element of `organizationQuery.Organization.Repositories.Nodes`:
a repository node with the fields requested by the query. -/
structure RepositoryNode where
  name : String
  diskUsage : Int
  createdAt : DateTime
  pushedAt : DateTime
  stargazers : Int
  watchers : Int
  forks : Int
  issuesOpen : Int
  issuesClosed : Int
  pullRequestsOpen : Int
  pullRequestsClosed : Int
  pullRequestsMerged : Int
deriving DecidableEq

/-- The `rateLimit` struct: limit, remaining, resetAt. -/
structure RateLimit where
  limit : Int
  remaining : Int
  resetAt : DateTime
deriving DecidableEq

/-- The Go zero value of the `rateLimit` struct (`var rateLimit rateLimit`):
integer fields 0, `ResetAt` the zero instant. -/
def RateLimit.zeroValue : RateLimit := ⟨0, 0, DateTime.zeroValue⟩

/-- The decoded `organizationQuery` result tree: the organization login, its
repository nodes (in returned order), and the rate-limit snapshot. -/
structure OrganizationQuery where
  login : String
  nodes : List RepositoryNode
  rateLimit : RateLimit
deriving DecidableEq

/-- A `prometheus.Desc`: fully-qualified name, help text, ordered
variable-label names (as built by `prometheus.NewDesc`). -/
structure Desc where
  fqName : String
  help : String
  labelNames : List String
deriving DecidableEq

/-- The package-level constant `namespace = "github"`. -/
def namespaceName : String := "github"

/-- `prometheus.BuildFQName(namespace, subsystem, name)` from
prometheus/client_golang: joins the nonempty parts with underscores; an empty
name yields the empty string. -/
def buildFQName (ns sub name : String) : String :=
  if name = "" then ""
  else if ns ≠ "" ∧ sub ≠ "" then ns ++ "_" ++ sub ++ "_" ++ name
  else if ns ≠ "" then ns ++ "_" ++ name
  else if sub ≠ "" then sub ++ "_" ++ name
  else name

/-- The `created` descriptor built in `NewOrganizationCollector`. -/
def createdDesc : Desc :=
  { fqName := buildFQName namespaceName "repo" "created"
    help := "Unix timestamp of when the repo was created"
    labelNames := ["owner", "name"] }

/-- The `diskUsage` descriptor built in `NewOrganizationCollector`. -/
def diskUsageDesc : Desc :=
  { fqName := buildFQName namespaceName "repo" "disk_usage_bytes"
    help := "Bytes of the repository used on disk"
    labelNames := ["owner", "name"] }

/-- The `forks` descriptor built in `NewOrganizationCollector`. -/
def forksDesc : Desc :=
  { fqName := buildFQName namespaceName "repo" "forks"
    help := "Number of forks of that repo"
    labelNames := ["owner", "name"] }

/-- The `issues` descriptor built in `NewOrganizationCollector`. -/
def issuesDesc : Desc :=
  { fqName := buildFQName namespaceName "repo" "issues"
    help := "Number of issues with a state of open or closed"
    labelNames := ["owner", "name", "state"] }

/-- The `pullRequests` descriptor built in `NewOrganizationCollector`. -/
def pullRequestsDesc : Desc :=
  { fqName := buildFQName namespaceName "repo" "pull_requests"
    help := "Number of pull requests with a state of open, closed or merged"
    labelNames := ["owner", "name", "state"] }

/-- The `pushed` descriptor built in `NewOrganizationCollector`.  Note the
source really spells the first label name "onwer" here. -/
def pushedDesc : Desc :=
  { fqName := buildFQName namespaceName "repo" "pushed"
    help := "Unix timestamp of then the repo was pushed to the last time"
    labelNames := ["onwer", "name"] }

/-- The `stargazers` descriptor built in `NewOrganizationCollector`.  Note the
source really spells the first label name "onwer" here. -/
def stargazersDesc : Desc :=
  { fqName := buildFQName namespaceName "repo" "stargazers"
    help := "Number of users that star the repo"
    labelNames := ["onwer", "name"] }

/-- The `watchers` descriptor built in `NewOrganizationCollector`.  Note the
source really spells the first label name "onwer" here. -/
def watchersDesc : Desc :=
  { fqName := buildFQName namespaceName "repo" "watchers"
    help := "Number of users that watch the repo"
    labelNames := ["onwer", "name"] }

/-- The `rateLimit` descriptor built in `NewOrganizationCollector`. -/
def rateLimitLimitDesc : Desc :=
  { fqName := buildFQName namespaceName "rate_limit" "limit"
    help := "The rate limit"
    labelNames := [] }

/-- The `rateLimitRemaining` descriptor built in `NewOrganizationCollector`. -/
def rateLimitRemainingDesc : Desc :=
  { fqName := buildFQName namespaceName "rate_limit" "remaining"
    help := "The remaining requests left until hitting the rate limit"
    labelNames := [] }

/-- The `rateLimitReset` descriptor built in `NewOrganizationCollector`. -/
def rateLimitResetDesc : Desc :=
  { fqName := buildFQName namespaceName "rate_limit" "reset_seconds"
    help := "Unix timestamp when the rate limit will be reset"
    labelNames := [] }

/-- The `OrganizationCollector` struct: the configured organization list and
the eleven descriptor fields.  The logger and the GraphQL client are not state
of the model: the logger shows up as `warn` events in the output stream and
the client is the `results` argument of `collect`. -/
structure OrganizationCollector where
  organizations : List String
  created : Desc
  diskUsage : Desc
  forks : Desc
  issues : Desc
  pullRequests : Desc
  pushed : Desc
  stargazers : Desc
  watchers : Desc
  rateLimit : Desc
  rateLimitRemaining : Desc
  rateLimitReset : Desc
deriving DecidableEq

/-- `NewOrganizationCollector`: stores the organization list and builds the
fixed descriptor set. -/
def newOrganizationCollector (organizations : List String) : OrganizationCollector :=
  { organizations := organizations
    created := createdDesc
    diskUsage := diskUsageDesc
    forks := forksDesc
    issues := issuesDesc
    pullRequests := pullRequestsDesc
    pushed := pushedDesc
    stargazers := stargazersDesc
    watchers := watchersDesc
    rateLimit := rateLimitLimitDesc
    rateLimitRemaining := rateLimitRemainingDesc
    rateLimitReset := rateLimitResetDesc }

/-- `Describe`: sends the eleven descriptors on the channel, in program
order.  It makes no query: its value does not depend on any query result. -/
def describe (c : OrganizationCollector) : List Desc :=
  [c.created, c.diskUsage, c.forks, c.issues, c.pullRequests, c.pushed,
   c.stargazers, c.watchers, c.rateLimit, c.rateLimitRemaining, c.rateLimitReset]

/-- An item emitted during `Collect`: either a metric sample
(`prometheus.MustNewConstMetric(desc, GaugeValue, value, labelValues...)`
sent on the channel) or a warning-severity log line. -/
inductive Event where
  | sample (desc : Desc) (value : Int) (labelValues : List String)
  | warn (msg : String)
deriving DecidableEq

/-- The message logged at warning severity when a query fails. -/
def warnMsg : String := "failed to execute organization query successfully"

/-- The eleven samples `Collect` emits for one repository node, in program
order.  Labels are the organization login from the query result and the
repository name, plus the state string for the issues / pull-requests
samples. -/
def repoSamples (c : OrganizationCollector) (login : String) (repo : RepositoryNode) : List Event :=
  [Event.sample c.created repo.createdAt.Unix [login, repo.name],
   Event.sample c.diskUsage repo.diskUsage [login, repo.name],
   Event.sample c.forks repo.forks [login, repo.name],
   Event.sample c.issues repo.issuesOpen [login, repo.name, "open"],
   Event.sample c.issues repo.issuesClosed [login, repo.name, "closed"],
   Event.sample c.pullRequests repo.pullRequestsOpen [login, repo.name, "open"],
   Event.sample c.pullRequests repo.pullRequestsClosed [login, repo.name, "closed"],
   Event.sample c.pullRequests repo.pullRequestsMerged [login, repo.name, "merged"],
   Event.sample c.pushed repo.pushedAt.Unix [login, repo.name],
   Event.sample c.stargazers repo.stargazers [login, repo.name],
   Event.sample c.watchers repo.watchers [login, repo.name]]

/-- All repository samples of one successful organization query, over the
returned node list in order. -/
def orgSamples (c : OrganizationCollector) (q : OrganizationQuery) : List Event :=
  q.nodes.flatMap (repoSamples c q.login)

/-- The three unlabeled rate-limit gauges emitted after the organization
loop: limit, remaining, and reset instant as Unix epoch seconds. -/
def rateLimitSamples (c : OrganizationCollector) (rl : RateLimit) : List Event :=
  [Event.sample c.rateLimit rl.limit [],
   Event.sample c.rateLimitRemaining rl.remaining [],
   Event.sample c.rateLimitReset rl.resetAt.Unix []]

/-- The organization loop of `Collect`, threading the `rateLimit` local
variable.  On a failed query it logs at warning severity and returns
immediately (so neither the remaining organizations nor the rate-limit
samples are emitted); on success it overwrites the rate-limit snapshot,
emits the repository samples, and continues.  After the loop the three
rate-limit gauges are emitted from the final snapshot. -/
def collectFrom (c : OrganizationCollector) (results : String → Option OrganizationQuery) :
    List String → RateLimit → List Event
  | [], rl => rateLimitSamples c rl
  | org :: rest, _rl =>
    match results org with
    | none => [Event.warn warnMsg]
    | some q => orgSamples c q ++ collectFrom c results rest q.rateLimit

/-- `Collect`: run the organization loop over the configured organizations,
starting from the zero-valued rate-limit snapshot. -/
def collect (c : OrganizationCollector) (results : String → Option OrganizationQuery) : List Event :=
  collectFrom c results c.organizations RateLimit.zeroValue

/-- Extract the query of a successful result; the default is never reached
when the result is known to be `some`. -/
def getQ : Option OrganizationQuery → OrganizationQuery
  | some q => q
  | none => { login := "", nodes := [], rateLimit := RateLimit.zeroValue }

/-- The value of the `rateLimit` local variable after a failure-free run of
the organization loop that started with snapshot `rl`. -/
def lastRL (results : String → Option OrganizationQuery) : List String → RateLimit → RateLimit
  | [], rl => rl
  | org :: rest, _rl => lastRL results rest (getQ (results org)).rateLimit

/-- `true` exactly on the three rate-limit samples of the collector. -/
def isRateLimitEvent (c : OrganizationCollector) : Event → Bool
  | Event.sample d _ _ => d = c.rateLimit ∨ d = c.rateLimitRemaining ∨ d = c.rateLimitReset
  | Event.warn _ => false

/-- The raw numeric values of one repository node, timestamps taken as Unix
epoch seconds. -/
def repoValues (repo : RepositoryNode) : List Int :=
  [repo.createdAt.Unix, repo.diskUsage, repo.forks,
   repo.issuesOpen, repo.issuesClosed,
   repo.pullRequestsOpen, repo.pullRequestsClosed, repo.pullRequestsMerged,
   repo.pushedAt.Unix, repo.stargazers, repo.watchers]

/-- The raw numeric values of a rate-limit snapshot, the reset instant taken
as Unix epoch seconds. -/
def rateLimitValues (rl : RateLimit) : List Int :=
  [rl.limit, rl.remaining, rl.resetAt.Unix]

/-- Every numeric value available in a collection cycle: per successful
organization the raw repository fields (timestamps as Unix seconds) and the
rate-limit snapshot fields, plus the zero-valued initial snapshot. -/
def sourceValues (results : String → Option OrganizationQuery) (orgs : List String) : List Int :=
  (orgs.flatMap fun o =>
    match results o with
    | none => []
    | some q => q.nodes.flatMap repoValues ++ rateLimitValues q.rateLimit) ++
  rateLimitValues RateLimit.zeroValue

/-- The concrete repository of the acceptance example: "widget" with disk
usage 42, forks 3, open issues 5, closed issues 7. -/
def widgetRepo : RepositoryNode :=
  { name := "widget", diskUsage := 42, createdAt := ⟨1500000000⟩, pushedAt := ⟨1600000000⟩,
    stargazers := 11, watchers := 13, forks := 3, issuesOpen := 5, issuesClosed := 7,
    pullRequestsOpen := 1, pullRequestsClosed := 2, pullRequestsMerged := 4 }

/-- The concrete successful query result of the acceptance example:
organization "acme" with the single repository "widget". -/
def acmeQuery : OrganizationQuery :=
  { login := "acme", nodes := [widgetRepo]
    rateLimit := { limit := 5000, remaining := 4999, resetAt := ⟨1700000000⟩ } }

/-- A query executor that succeeds exactly on "acme". -/
def acmeResults : String → Option OrganizationQuery :=
  fun o => if o = "acme" then some acmeQuery else none

/-- A second concrete successful query result, with no repositories and a
rate-limit snapshot different from the one of `acmeQuery`. -/
def betaQuery : OrganizationQuery :=
  { login := "beta", nodes := []
    rateLimit := { limit := 100, remaining := 50, resetAt := ⟨1800000000⟩ } }

/-- A query executor that succeeds on "acme" and "beta". -/
def twoOrgResults : String → Option OrganizationQuery :=
  fun o => if o = "acme" then some acmeQuery else if o = "beta" then some betaQuery else none

/-- A query executor that agrees with `acmeResults` on "acme" but differs
everywhere else. -/
def altResults : String → Option OrganizationQuery :=
  fun o => if o = "acme" then some acmeQuery else some betaQuery

/-- In a failure-free run the organization loop emits each organization's
repository samples in configured order and finishes with the rate-limit
gauges taken from the final value of the threaded snapshot. -/
theorem collectFrom_eq_of_all_some (c : OrganizationCollector)
    (results : String → Option OrganizationQuery) :
    ∀ (orgs : List String) (rl : RateLimit), (∀ o ∈ orgs, (results o).isSome) →
      collectFrom c results orgs rl =
        (orgs.flatMap fun o => orgSamples c (getQ (results o))) ++
          rateLimitSamples c (lastRL results orgs rl) := by
  intro orgs
  induction orgs with
  | nil => intro rl _; simp [collectFrom, lastRL]
  | cons org rest ih =>
    intro rl hall
    have hsome : (results org).isSome := hall org (List.mem_cons_self org rest)
    obtain ⟨q, hq⟩ := Option.isSome_iff_exists.mp hsome
    have hrest : ∀ o ∈ rest, (results o).isSome := fun o ho =>
      hall o (List.mem_cons_of_mem org ho)
    simp only [collectFrom, hq]
    rw [ih q.rateLimit hrest]
    simp [List.flatMap_cons, lastRL, hq, getQ, List.append_assoc]

/-- After a failure-free run ending in organization `org`, the threaded
rate-limit snapshot is the one from the last query result, whatever the
initial snapshot was. -/
theorem lastRL_concat (results : String → Option OrganizationQuery) :
    ∀ (init : List String) (org : String) (rl : RateLimit),
      lastRL results (init ++ [org]) rl = (getQ (results org)).rateLimit := by
  intro init
  induction init with
  | nil => intro org rl; simp [lastRL]
  | cons p rest ih => intro org rl; simpa [lastRL] using ih org (getQ (results p)).rateLimit

/-- When the query of organization `org` fails after the failure-free part
`pre`, the loop emits the repository samples of `pre`, then the warning log,
and stops: nothing for `org`, nothing for `post`, and no rate-limit gauges. -/
theorem collectFrom_failure (c : OrganizationCollector)
    (results : String → Option OrganizationQuery) :
    ∀ (pre : List String) (org : String) (post : List String) (rl : RateLimit),
      (∀ o ∈ pre, (results o).isSome) → results org = none →
      collectFrom c results (pre ++ org :: post) rl =
        (pre.flatMap fun o => orgSamples c (getQ (results o))) ++ [Event.warn warnMsg] := by
  intro pre
  induction pre with
  | nil => intro org post rl _ hnone; simp [collectFrom, hnone]
  | cons p rest ih =>
    intro org post rl hall hnone
    have hsome : (results p).isSome := hall p (List.mem_cons_self p rest)
    obtain ⟨q, hq⟩ := Option.isSome_iff_exists.mp hsome
    have hrest : ∀ o ∈ rest, (results o).isSome := fun o ho =>
      hall o (List.mem_cons_of_mem p ho)
    rw [List.cons_append]
    simp only [collectFrom, hq]
    rw [ih org post q.rateLimit hrest hnone]
    simp [List.flatMap_cons, hq, getQ, List.append_assoc]

/-- Any value sampled for a repository is one of the raw field values of
that node (timestamps as Unix seconds). -/
theorem value_mem_repoValues (c : OrganizationCollector) (login : String)
    (repo : RepositoryNode) (d : Desc) (v : Int) (l : List String)
    (h : Event.sample d v l ∈ repoSamples c login repo) : v ∈ repoValues repo := by
  simp only [repoSamples, List.mem_cons, List.not_mem_nil, or_false] at h
  rcases h with h | h | h | h | h | h | h | h | h | h | h <;>
    · rw [Event.sample.injEq] at h
      simp [repoValues, h.2.1]

/-- Any value of a rate-limit gauge is one of the raw fields of the sampled
snapshot (the reset instant as Unix seconds). -/
theorem value_mem_rateLimitValues (c : OrganizationCollector) (rl : RateLimit)
    (d : Desc) (v : Int) (l : List String)
    (h : Event.sample d v l ∈ rateLimitSamples c rl) : v ∈ rateLimitValues rl := by
  simp only [rateLimitSamples, List.mem_cons, List.not_mem_nil, or_false] at h
  rcases h with h | h | h <;>
    · rw [Event.sample.injEq] at h
      simp [rateLimitValues, h.2.1]

/-- Structural characterization of the events of the organization loop:
each one is the warning log, a repository sample of some successful
organization in the list, or a rate-limit gauge of either the initial
snapshot or the snapshot of some successful organization in the list. -/
theorem mem_collectFrom (c : OrganizationCollector)
    (results : String → Option OrganizationQuery) :
    ∀ (orgs : List String) (rl : RateLimit) (e : Event), e ∈ collectFrom c results orgs rl →
      e = Event.warn warnMsg ∨
      (∃ org q repo, org ∈ orgs ∧ results org = some q ∧ repo ∈ q.nodes ∧
        e ∈ repoSamples c q.login repo) ∨
      (∃ rl2, (rl2 = rl ∨ ∃ org q, org ∈ orgs ∧ results org = some q ∧ rl2 = q.rateLimit) ∧
        e ∈ rateLimitSamples c rl2) := by
  intro orgs
  induction orgs with
  | nil =>
    intro rl e he
    right; right
    exact ⟨rl, Or.inl rfl, by simpa [collectFrom] using he⟩
  | cons org rest ih =>
    intro rl e he
    simp only [collectFrom] at he
    cases hq : results org with
    | none =>
      rw [hq] at he
      left
      simpa using he
    | some q =>
      rw [hq] at he
      rcases List.mem_append.mp he with hrepo | hrec
      · obtain ⟨repo, hrepo, hmem⟩ := List.mem_flatMap.mp hrepo
        exact Or.inr (Or.inl ⟨org, q, repo, List.mem_cons_self org rest, hq, hrepo, hmem⟩)
      · rcases ih q.rateLimit e hrec with hwarn | ⟨o2, q2, repo2, ho2, hq2, hrepo2, hmem2⟩ |
          ⟨rl2, hrl2, hmem2⟩
        · exact Or.inl hwarn
        · exact Or.inr (Or.inl ⟨o2, q2, repo2, List.mem_cons_of_mem org ho2, hq2, hrepo2, hmem2⟩)
        · refine Or.inr (Or.inr ⟨rl2, ?_, hmem2⟩)
          rcases hrl2 with hinit | ⟨o2, q2, ho2, hq2, heq⟩
          · exact Or.inr ⟨org, q, List.mem_cons_self org rest, hq, hinit⟩
          · exact Or.inr ⟨o2, q2, List.mem_cons_of_mem org ho2, hq2, heq⟩

/-- Every repository sample of a collector built by
`newOrganizationCollector` carries as many label values as its descriptor
declares label names. -/
theorem arity_repoSamples (orgs : List String) (login : String) (repo : RepositoryNode)
    (d : Desc) (v : Int) (l : List String)
    (h : Event.sample d v l ∈ repoSamples (newOrganizationCollector orgs) login repo) :
    l.length = d.labelNames.length := by
  simp only [repoSamples, List.mem_cons, List.not_mem_nil, or_false] at h
  rcases h with h | h | h | h | h | h | h | h | h | h | h <;>
    · rw [Event.sample.injEq] at h
      obtain ⟨hd, _, hl⟩ := h
      subst hd; subst hl; rfl

/-- Every rate-limit sample of a collector built by
`newOrganizationCollector` carries as many label values (none) as its
descriptor declares label names (none). -/
theorem arity_rateLimitSamples (orgs : List String) (rl : RateLimit)
    (d : Desc) (v : Int) (l : List String)
    (h : Event.sample d v l ∈ rateLimitSamples (newOrganizationCollector orgs) rl) :
    l.length = d.labelNames.length := by
  simp only [rateLimitSamples, List.mem_cons, List.not_mem_nil, or_false] at h
  rcases h with h | h | h <;>
    · rw [Event.sample.injEq] at h
      obtain ⟨hd, _, hl⟩ := h
      subst hd; subst hl; rfl

/-- No repository sample uses one of the three rate-limit descriptors: their
fully-qualified names differ. -/
theorem repoSamples_not_rateLimitEvent (orgs : List String) (login : String)
    (repo : RepositoryNode) :
    ∀ e ∈ repoSamples (newOrganizationCollector orgs) login repo,
      isRateLimitEvent (newOrganizationCollector orgs) e = false := by
  intro e he
  simp only [repoSamples, List.mem_cons, List.not_mem_nil, or_false] at he
  rcases he with he | he | he | he | he | he | he | he | he | he | he <;>
    · subst he
      rfl

/-- The organization loop is a congruence in the query executor: two
executors that agree on every listed organization produce the same events. -/
theorem collectFrom_congr (c : OrganizationCollector)
    (r1 r2 : String → Option OrganizationQuery) :
    ∀ (orgs : List String) (rl : RateLimit), (∀ o ∈ orgs, r1 o = r2 o) →
      collectFrom c r1 orgs rl = collectFrom c r2 orgs rl := by
  intro orgs
  induction orgs with
  | nil => intro rl _; rfl
  | cons org rest ih =>
    intro rl h
    have hor : r1 org = r2 org := h org (List.mem_cons_self org rest)
    have hrest : ∀ o ∈ rest, r1 o = r2 o := fun o ho => h o (List.mem_cons_of_mem org ho)
    cases hq : r2 org with
    | none => simp [collectFrom, hor, hq]
    | some q =>
      simp only [collectFrom, hor, hq]
      rw [ih q.rateLimit hrest]

/-- C1: for every organization of a failure-free cycle, `Collect` emits, per
repository node in returned order, exactly eleven samples in the fixed order
created, disk usage, forks, issues(open), issues(closed),
pull-requests(open), pull-requests(closed), pull-requests(merged), pushed,
stargazers, watchers; label values are (organization login, repository
name), with the state string appended for the issues and pull-requests
samples. -/
theorem C1_collect_emits_eleven_samples_per_repo (orgs : List String)
    (results : String → Option OrganizationQuery)
    (hall : ∀ o ∈ orgs, (results o).isSome) :
    (∃ rlTail, collect (newOrganizationCollector orgs) results =
      (orgs.flatMap fun o =>
        (getQ (results o)).nodes.flatMap
          (repoSamples (newOrganizationCollector orgs) (getQ (results o)).login)) ++
        rateLimitSamples (newOrganizationCollector orgs) rlTail) ∧
    ∀ login repo, repoSamples (newOrganizationCollector orgs) login repo =
      [Event.sample createdDesc repo.createdAt.Unix [login, repo.name],
       Event.sample diskUsageDesc repo.diskUsage [login, repo.name],
       Event.sample forksDesc repo.forks [login, repo.name],
       Event.sample issuesDesc repo.issuesOpen [login, repo.name, "open"],
       Event.sample issuesDesc repo.issuesClosed [login, repo.name, "closed"],
       Event.sample pullRequestsDesc repo.pullRequestsOpen [login, repo.name, "open"],
       Event.sample pullRequestsDesc repo.pullRequestsClosed [login, repo.name, "closed"],
       Event.sample pullRequestsDesc repo.pullRequestsMerged [login, repo.name, "merged"],
       Event.sample pushedDesc repo.pushedAt.Unix [login, repo.name],
       Event.sample stargazersDesc repo.stargazers [login, repo.name],
       Event.sample watchersDesc repo.watchers [login, repo.name]] := by
  refine ⟨⟨lastRL results orgs RateLimit.zeroValue, ?_⟩, fun login repo => rfl⟩
  have h := collectFrom_eq_of_all_some (newOrganizationCollector orgs) results orgs
    RateLimit.zeroValue hall
  simpa [collect, orgSamples] using h

/-- Witness for C1 at the concrete one-organization input. -/
theorem C1_collect_emits_eleven_samples_per_repo_w :
    ∃ rlTail, collect (newOrganizationCollector ["acme"]) acmeResults =
      ((["acme"] : List String).flatMap fun o =>
        (getQ (acmeResults o)).nodes.flatMap
          (repoSamples (newOrganizationCollector ["acme"]) (getQ (acmeResults o)).login)) ++
        rateLimitSamples (newOrganizationCollector ["acme"]) rlTail :=
  (C1_collect_emits_eleven_samples_per_repo ["acme"] acmeResults (by decide)).1

/-- C2: when organization `org` is the first whose query fails, `Collect`
keeps the samples already emitted for the preceding organizations, emits
the warning log, stops before the organizations after `org`, and emits no
rate-limit samples; being a total function, it raises nothing to the
caller. -/
theorem C2_failure_aborts_cycle (pre : List String) (org : String) (post : List String)
    (results : String → Option OrganizationQuery)
    (hpre : ∀ o ∈ pre, (results o).isSome) (hfail : results org = none) :
    collect (newOrganizationCollector (pre ++ org :: post)) results =
      (pre.flatMap fun o =>
        orgSamples (newOrganizationCollector (pre ++ org :: post)) (getQ (results o))) ++
        [Event.warn warnMsg] ∧
    ∀ e ∈ collect (newOrganizationCollector (pre ++ org :: post)) results,
      isRateLimitEvent (newOrganizationCollector (pre ++ org :: post)) e = false := by
  have heq := collectFrom_failure (newOrganizationCollector (pre ++ org :: post)) results
    pre org post RateLimit.zeroValue hpre hfail
  refine ⟨heq, ?_⟩
  intro e he
  rw [show collect (newOrganizationCollector (pre ++ org :: post)) results =
      collectFrom (newOrganizationCollector (pre ++ org :: post)) results
        (pre ++ org :: post) RateLimit.zeroValue from rfl, heq] at he
  rcases List.mem_append.mp he with h | h
  · obtain ⟨o, _, hmem⟩ := List.mem_flatMap.mp h
    obtain ⟨repo, _, hmem2⟩ := List.mem_flatMap.mp hmem
    exact repoSamples_not_rateLimitEvent (pre ++ org :: post) _ repo e hmem2
  · have : e = Event.warn warnMsg := by simpa using h
    subst this
    rfl

/-- Witness for C2: with organizations acme, beta, gamma and an executor
that only answers acme, the cycle is acme's samples followed by the
warning. -/
theorem C2_failure_aborts_cycle_w :
    collect (newOrganizationCollector (["acme"] ++ "beta" :: ["gamma"])) acmeResults =
      ((["acme"] : List String).flatMap fun o =>
        orgSamples (newOrganizationCollector (["acme"] ++ "beta" :: ["gamma"]))
          (getQ (acmeResults o))) ++ [Event.warn warnMsg] :=
  (C2_failure_aborts_cycle ["acme"] "beta" ["gamma"] acmeResults (by decide) (by decide)).1

/-- C3: on the concrete success for organization "acme" with the single
repository "widget" (disk usage 42, forks 3, open issues 5, closed issues
7, created at Unix second 1500000000), `Collect` emits the created,
disk-usage, forks and both issues samples with exactly those values and the
labels (owner "acme", name "widget"), plus the state where applicable. -/
theorem C3_acme_widget_samples :
    Event.sample createdDesc 1500000000 ["acme", "widget"] ∈
      collect (newOrganizationCollector ["acme"]) acmeResults ∧
    Event.sample diskUsageDesc 42 ["acme", "widget"] ∈
      collect (newOrganizationCollector ["acme"]) acmeResults ∧
    Event.sample forksDesc 3 ["acme", "widget"] ∈
      collect (newOrganizationCollector ["acme"]) acmeResults ∧
    Event.sample issuesDesc 5 ["acme", "widget", "open"] ∈
      collect (newOrganizationCollector ["acme"]) acmeResults ∧
    Event.sample issuesDesc 7 ["acme", "widget", "closed"] ∈
      collect (newOrganizationCollector ["acme"]) acmeResults := by
  decide

/-- C4: `Describe` sends exactly the fixed eleven-descriptor set chosen at
construction, in program order, independently of the configured
organization list (and of any network state, which it never touches), and
every call returns the same list. -/
theorem C4_describe_fixed_idempotent :
    ∀ orgs orgs2 : List String,
      describe (newOrganizationCollector orgs) = describe (newOrganizationCollector orgs2) ∧
      describe (newOrganizationCollector orgs) =
        [createdDesc, diskUsageDesc, forksDesc, issuesDesc, pullRequestsDesc, pushedDesc,
         stargazersDesc, watchersDesc, rateLimitLimitDesc, rateLimitRemainingDesc,
         rateLimitResetDesc] :=
  fun _ _ => ⟨rfl, rfl⟩

/-- C5: every emitted sample value is taken from the query results without
scaling: it is one of the raw integer fields, or the Unix-epoch-seconds
value of one of the instant fields (including the zero-valued initial
rate-limit snapshot). -/
theorem C5_sample_values_unscaled (orgs : List String)
    (results : String → Option OrganizationQuery) (d : Desc) (v : Int) (l : List String)
    (h : Event.sample d v l ∈ collect (newOrganizationCollector orgs) results) :
    v ∈ sourceValues results orgs := by
  rcases mem_collectFrom (newOrganizationCollector orgs) results orgs RateLimit.zeroValue
      (Event.sample d v l) h with hwarn | ⟨org, q, repo, ho, hq, hrepo, hmem⟩ |
      ⟨rl2, hrl2, hmem⟩
  · simp at hwarn
  · refine List.mem_append.mpr (Or.inl (List.mem_flatMap.mpr ⟨org, ho, ?_⟩))
    simp only [hq]
    exact List.mem_append.mpr (Or.inl (List.mem_flatMap.mpr
      ⟨repo, hrepo, value_mem_repoValues _ q.login repo d v l hmem⟩))
  · rcases hrl2 with hinit | ⟨org, q, ho, hq, heq⟩
    · rw [hinit] at hmem
      exact List.mem_append.mpr
        (Or.inr (value_mem_rateLimitValues _ RateLimit.zeroValue d v l hmem))
    · subst heq
      refine List.mem_append.mpr (Or.inl (List.mem_flatMap.mpr ⟨org, ho, ?_⟩))
      simp only [hq]
      exact List.mem_append.mpr (Or.inr (value_mem_rateLimitValues _ q.rateLimit d v l hmem))

/-- Witness for C5: the disk-usage sample of the concrete cycle carries the
raw value 42. -/
theorem C5_sample_values_unscaled_w : (42 : Int) ∈ sourceValues acmeResults ["acme"] :=
  C5_sample_values_unscaled ["acme"] acmeResults diskUsageDesc 42 ["acme", "widget"]
    (by decide)

/-- C6: every sample `Collect` emits carries exactly as many label values as
its descriptor declares label names, and the declared arities are two for
created, disk usage, forks, pushed, stargazers and watchers, three for
issues and pull requests, and zero for the three rate-limit gauges. -/
theorem C6_label_arity_matches (orgs : List String)
    (results : String → Option OrganizationQuery) (d : Desc) (v : Int) (l : List String)
    (h : Event.sample d v l ∈ collect (newOrganizationCollector orgs) results) :
    l.length = d.labelNames.length ∧
    createdDesc.labelNames.length = 2 ∧ diskUsageDesc.labelNames.length = 2 ∧
    forksDesc.labelNames.length = 2 ∧ pushedDesc.labelNames.length = 2 ∧
    stargazersDesc.labelNames.length = 2 ∧ watchersDesc.labelNames.length = 2 ∧
    issuesDesc.labelNames.length = 3 ∧ pullRequestsDesc.labelNames.length = 3 ∧
    rateLimitLimitDesc.labelNames.length = 0 ∧
    rateLimitRemainingDesc.labelNames.length = 0 ∧
    rateLimitResetDesc.labelNames.length = 0 := by
  refine ⟨?_, by decide⟩
  rcases mem_collectFrom (newOrganizationCollector orgs) results orgs RateLimit.zeroValue
      (Event.sample d v l) h with hwarn | ⟨org, q, repo, _, _, _, hmem⟩ | ⟨rl2, _, hmem⟩
  · simp at hwarn
  · exact arity_repoSamples orgs q.login repo d v l hmem
  · exact arity_rateLimitSamples orgs rl2 d v l hmem

/-- Witness for C6: the issues sample of the concrete cycle has three label
values, matching the three declared label names. -/
theorem C6_label_arity_matches_w :
    (["acme", "widget", "open"] : List String).length = issuesDesc.labelNames.length :=
  (C6_label_arity_matches ["acme"] acmeResults issuesDesc 5 ["acme", "widget", "open"]
    (by decide)).1

/-- C7: in a failure-free cycle over at least one organization, `Collect`
emits, after all repository samples, exactly the three unlabeled rate-limit
gauges (limit, remaining, reset as Unix epoch seconds) of the last
organization's snapshot, the earlier snapshots having been overwritten. -/
theorem C7_rate_limit_last_write_wins (init : List String) (org : String)
    (results : String → Option OrganizationQuery)
    (hall : ∀ o ∈ init ++ [org], (results o).isSome) :
    collect (newOrganizationCollector (init ++ [org])) results =
      ((init ++ [org]).flatMap fun o =>
        orgSamples (newOrganizationCollector (init ++ [org])) (getQ (results o))) ++
        rateLimitSamples (newOrganizationCollector (init ++ [org]))
          (getQ (results org)).rateLimit ∧
    ∀ rl : RateLimit, rateLimitSamples (newOrganizationCollector (init ++ [org])) rl =
      [Event.sample rateLimitLimitDesc rl.limit [],
       Event.sample rateLimitRemainingDesc rl.remaining [],
       Event.sample rateLimitResetDesc rl.resetAt.Unix []] := by
  refine ⟨?_, fun rl => rfl⟩
  have h := collectFrom_eq_of_all_some (newOrganizationCollector (init ++ [org])) results
    (init ++ [org]) RateLimit.zeroValue hall
  rw [lastRL_concat results init org RateLimit.zeroValue] at h
  exact h

/-- Witness for C7: with organizations acme then beta both succeeding, the
cycle ends with beta's rate-limit snapshot. -/
theorem C7_rate_limit_last_write_wins_w :
    collect (newOrganizationCollector (["acme"] ++ ["beta"])) twoOrgResults =
      ((["acme"] ++ ["beta"] : List String).flatMap fun o =>
        orgSamples (newOrganizationCollector (["acme"] ++ ["beta"])) (getQ (twoOrgResults o))) ++
        rateLimitSamples (newOrganizationCollector (["acme"] ++ ["beta"]))
          (getQ (twoOrgResults "beta")).rateLimit :=
  (C7_rate_limit_last_write_wins ["acme"] "beta" twoOrgResults (by decide)).1

/-- C8: a collection cycle is deterministic and depends only on that
cycle's query results: two runs whose executors agree on every configured
organization emit the same event stream, and the Unix-seconds conversion of
an instant is a pure function of the instant. -/
theorem C8_collect_deterministic (orgs : List String)
    (r1 r2 : String → Option OrganizationQuery)
    (hagree : ∀ o ∈ orgs, r1 o = r2 o) :
    collect (newOrganizationCollector orgs) r1 = collect (newOrganizationCollector orgs) r2 ∧
    ∀ t1 t2 : DateTime, t1.unixSec = t2.unixSec → DateTime.Unix t1 = DateTime.Unix t2 :=
  ⟨collectFrom_congr (newOrganizationCollector orgs) r1 r2 orgs RateLimit.zeroValue hagree,
   fun _ _ ht => ht⟩

/-- Witness for C8: two executors that agree on the single configured
organization but differ elsewhere yield the same cycle. -/
theorem C8_collect_deterministic_w :
    collect (newOrganizationCollector ["acme"]) acmeResults =
      collect (newOrganizationCollector ["acme"]) altResults :=
  (C8_collect_deterministic ["acme"] acmeResults altResults (by decide)).1

/-- C9: with an empty organization list, `Collect` queries nothing and
emits exactly the three rate-limit gauges of the zero-valued snapshot:
limit 0, remaining 0, and the Unix-seconds conversion of the zero
instant. -/
theorem C9_empty_orgs_rate_limit_zero (results : String → Option OrganizationQuery) :
    collect (newOrganizationCollector []) results =
      [Event.sample rateLimitLimitDesc 0 [],
       Event.sample rateLimitRemainingDesc 0 [],
       Event.sample rateLimitResetDesc DateTime.zeroValue.Unix []] :=
  rfl

/-- C10: the pushed, stargazers and watchers descriptors are declared with
first label name "onwer" while created, disk usage and forks use "owner",
so the owner label name is not uniform across the six two-label
per-repository families. -/
theorem C10_label_name_typo_nonuniform :
    pushedDesc.labelNames = ["onwer", "name"] ∧
    stargazersDesc.labelNames = ["onwer", "name"] ∧
    watchersDesc.labelNames = ["onwer", "name"] ∧
    createdDesc.labelNames = ["owner", "name"] ∧
    diskUsageDesc.labelNames = ["owner", "name"] ∧
    forksDesc.labelNames = ["owner", "name"] ∧
    pushedDesc.labelNames ≠ createdDesc.labelNames := by
  decide
